import Mathlib

/-
Shallow embedding of the dirchecker repository:
  * src/report_validator.py — PDF header-field extraction and validation
  * src/dirchecker.py       — directory/file structure QC

Text is modelled as `List Char`; Python strings in messages are built with
`String.data`.  Machine details that matter are noted at each definition.
-/

namespace RV

/-- ASCII whitespace: the characters matched by Python's regex `\s` and
stripped by `str.strip()` (for ASCII input). -/
def isWs (c : Char) : Bool :=
  c = ' ' || c = '\t' || c = '\n' || c = '\r' || c = '\x0b' || c = '\x0c'

/-- Python `str.strip()`: remove leading and trailing whitespace. -/
def pyStrip (s : List Char) : List Char :=
  ((s.dropWhile isWs).reverse.dropWhile isWs).reverse

/-- The character class `[:\-\s]` of the cleanup regex in
`extract_field_value` (line 38 of report_validator.py). -/
def leadJunk (c : Char) : Bool :=
  isWs c || c = ':' || c = '-'

/-- `re.sub(r'^\s*[:\-\s]+', '', value)`: the anchored greedy match removes
exactly the maximal leading run of colon/dash/whitespace characters. -/
def dropLead (s : List Char) : List Char :=
  s.dropWhile leadJunk

/-- `re.sub(r'\s+', ' ', value)`: every maximal run of whitespace characters
is replaced by a single space. -/
def collapseWs : List Char → List Char
  | [] => []
  | [c] => if isWs c then [' '] else [c]
  | a :: b :: rest =>
    if isWs a && isWs b then collapseWs (b :: rest)
    else (if isWs a then ' ' else a) :: collapseWs (b :: rest)

/-- The cleanup pipeline applied to a regex capture in `extract_field_value`
(lines 36–39): `strip`, drop leading colon/dash/whitespace, normalise
whitespace. -/
def cleanValue (raw : List Char) : List Char :=
  collapseWs (dropLead (pyStrip raw))

/-- Repetition kinds occurring in the three extraction patterns.  Every
repetition in those patterns is over a single character class, so a
repetition of `n` characters succeeds iff the first `n` characters are in
the class. -/
inductive Rep
  | star      -- greedy `*`: prefers the longest run
  | plus      -- greedy `+`: prefers the longest run, needs at least one
  | starLazy  -- lazy `*?`: prefers the shortest run
  | one       -- a single literal character

/-- Length of the maximal prefix of `s` inside the class `cls`. -/
def classRun (cls : Char → Bool) (s : List Char) : Nat :=
  (s.takeWhile cls).length

/-- Candidate consumption counts for a repetition over a class whose maximal
run has length `r`, in the backtracking preference order used by `re`. -/
def repCounts : Rep → Nat → List Nat
  | .star, r => (List.range (r + 1)).reverse
  | .plus, r => ((List.range (r + 1)).reverse).filter (fun n => n != 0)
  | .starLazy, r => List.range (r + 1)
  | .one, r => if 0 < r then [1] else []

/-- One class repetition inside a pattern. -/
structure RxItem where
  cls : Char → Bool
  rep : Rep

/-- Match a sequence of class repetitions followed by a final greedy-plus
capture group over class `cap`, with `re` backtracking order (earlier items
keep their preferred lengths as long as the remainder can match).  Returns
the captured group. -/
def matchItems (cap : Char → Bool) : List RxItem → List Char → Option (List Char)
  | [], s =>
    let n := classRun cap s
    if n = 0 then none else some (s.take n)
  | it :: rest, s =>
    (repCounts it.rep (classRun it.cls s)).findSome? fun n =>
      matchItems cap rest (s.drop n)

/-- Case-insensitive character comparison (`re.IGNORECASE`, ASCII). -/
def icaseEq (a b : Char) : Bool := a.toLower = b.toLower

/-- Strip the literal `lit` (case-insensitively) from the front of `s`. -/
def dropLitI : List Char → List Char → Option (List Char)
  | [], s => some s
  | _ :: _, [] => none
  | p :: ps, c :: cs => if icaseEq p c then dropLitI ps cs else none

/-- `re.search` for a pattern of the form
`<literal> <class repetitions> (<capture class>+)`: try each start position
left to right; at the first position where the whole pattern matches, return
the capture. -/
def reSearch (lit : List Char) (items : List RxItem) (cap : Char → Bool) :
    List Char → Option (List Char)
  | [] => (dropLitI lit []).bind (matchItems cap items)
  | c :: t =>
    match (dropLitI lit (c :: t)).bind (matchItems cap items) with
    | some g => some g
    | none => reSearch lit items cap t

/-- `[^\n\r]` -/
def notNl (c : Char) : Bool := !(c = '\n' || c = '\r')

/-- `[^\n]` (also the class of `.` without DOTALL) -/
def notLf (c : Char) : Bool := !(c = '\n')

/-- `[:\s]` -/
def colonWs (c : Char) : Bool := c = ':' || isWs c

/-- `[A-Za-z0-9\/\-\.\s:]` — the capture class of extraction pattern 3. -/
def p3cls (c : Char) : Bool :=
  c.isAlpha || c.isDigit || c = '/' || c = '-' || c = '.' || c = ':' || isWs c

/-- Pattern 1 of `extract_field_value`:
`{field}\s*[:\s]+([^\n\r]+)` with IGNORECASE. -/
def searchPat1 (field text : List Char) : Option (List Char) :=
  reSearch field [⟨isWs, .star⟩, ⟨colonWs, .plus⟩] notNl text

/-- Pattern 2: `{field}[^\n]*\n\s*([^\n\r]+)` with IGNORECASE. -/
def searchPat2 (field text : List Char) : Option (List Char) :=
  reSearch field [⟨notLf, .star⟩, ⟨fun c => c = '\n', .one⟩, ⟨isWs, .star⟩] notNl text

/-- Pattern 3: `{field}.*?([A-Za-z0-9\/\-\.\s:]+)` with IGNORECASE. -/
def searchPat3 (field text : List Char) : Option (List Char) :=
  reSearch field [⟨notLf, .starLazy⟩] p3cls text

/-- Lines 36–41 of report_validator.py: clean the capture and accept it only
if the cleaned value has more than one character (`value and len(value) > 1`). -/
def tryClean (r : Option (List Char)) : Option (List Char) :=
  r.bind fun g =>
    let v := cleanValue g
    if 2 ≤ v.length then some v else none

/-- `PenetrationTestReportValidator.extract_field_value` (lines 20–43):
the three patterns are tried in order on the raw page text; the first one
whose cleaned capture is meaningful (length > 1) wins; otherwise the empty
string is returned.  The page's table structure is not an input: the source
only ever consults `text`. -/
def extract_field_value (text field : List Char) : List Char :=
  match tryClean (searchPat1 field text) with
  | some v => v
  | none =>
    match tryClean (searchPat2 field text) with
    | some v => v
    | none =>
      match tryClean (searchPat3 field text) with
      | some v => v
      | none => []

/-- The apostrophe character used by the Python f-string messages. -/
def squote : Char := Char.ofNat 39

/-- Length of the maximal prefix run of ASCII digits. -/
def digitRun (s : List Char) : Nat :=
  (s.takeWhile Char.isDigit).length

/-- `decide (lo ≤ n ∧ n ≤ hi)` as a Bool. -/
def okLen (lo hi n : Nat) : Bool := decide (lo ≤ n ∧ n ≤ hi)

/-- Shape `^\d{a1..b1}<sep>\d{a2..b2}<sep>\d{a3..b3}$` on a whole string.
Because each digit group is followed by a non-digit (the separator or the
end), a bounded greedy `\d{a,b}` matches here exactly when the maximal digit
run at that point has length in `[a, b]`; this makes the regex equivalent to
this run-based parser.  The input is always pre-stripped, so `$` is plain
end of string. -/
def tripleShape (sep : Char) (a1 b1 a2 b2 a3 b3 : Nat) (s : List Char) : Bool :=
  let n1 := digitRun s
  match s.drop n1 with
  | c1 :: r1 =>
    okLen a1 b1 n1 && (c1 == sep) &&
      (let n2 := digitRun r1
       match r1.drop n2 with
       | c2 :: r2 =>
         okLen a2 b2 n2 && (c2 == sep) &&
           okLen a3 b3 (digitRun r2) && (r2.drop (digitRun r2)).isEmpty
       | [] => false)
  | [] => false

/-- `PenetrationTestReportValidator.validate_date` (lines 45–62): the three
shape patterns `^\d{1,2}/\d{1,2}/\d{4}$`, `^\d{1,2}-\d{1,2}-\d{4}$`,
`^\d{4}-\d{1,2}-\d{1,2}$` are tried with `re.match` on the stripped value.
No calendar validation is performed. -/
def validate_date (s : List Char) : Bool × List Char :=
  if s = [] then (false, "Date field is empty".data)
  else
    let t := pyStrip s
    if tripleShape '/' 1 2 1 2 4 4 t || tripleShape '-' 1 2 1 2 4 4 t ||
        tripleShape '-' 4 4 1 2 1 2 t then
      (true, "Valid date format".data)
    else
      (false, "Invalid date format: ".data ++ [squote] ++ s ++ [squote])

/-- Shape `^\d{1,3}\.\d{1,3}\.\d{1,3}\.\d{1,3}$` on a whole (stripped)
string — the `ip_pattern` of `validate_ip_address`. -/
def quadShape (s : List Char) : Bool :=
  let n1 := digitRun s
  match s.drop n1 with
  | c1 :: r1 =>
    okLen 1 3 n1 && (c1 == '.') && tripleShape '.' 1 3 1 3 1 3 r1
  | [] => false

/-- Python `str.split('.')`. -/
def splitDots : List Char → List (List Char)
  | [] => [[]]
  | c :: rest =>
    match splitDots rest with
    | [] => [[c]]
    | g :: gs => if c = '.' then [] :: g :: gs else (c :: g) :: gs

/-- Python `int` on a digit string. -/
def partVal (p : List Char) : Nat :=
  p.foldl (fun n c => n * 10 + (c.toNat - 48)) 0

/-- `PenetrationTestReportValidator.validate_ip_address` (lines 64–82):
the whole stripped value must match the single dotted-quad pattern; only
then are the four octets range-checked. -/
def validate_ip_address (s : List Char) : Bool × List Char :=
  if s = [] then (false, "IP Address field is empty".data)
  else
    let t := pyStrip s
    if quadShape t then
      if (splitDots t).all (fun p => partVal p ≤ 255) then
        (true, "Valid IP address".data)
      else
        (false, "IP address out of valid range: ".data ++ [squote] ++ s ++ [squote])
    else
      (false, "Invalid IP address format: ".data ++ [squote] ++ s ++ [squote])

/-- Python `str.lower()` (ASCII). -/
def toLowerStr (s : List Char) : List Char := s.map Char.toLower

/-- `PenetrationTestReportValidator.validate_report_status` (lines 84–94). -/
def validate_report_status (s expected : List Char) : Bool × List Char :=
  if s = [] then (false, "Report Status field is empty".data)
  else if toLowerStr (pyStrip s) = toLowerStr expected then
    (true, "Report status matches expected value: ".data ++ [squote] ++ expected ++ [squote])
  else
    (false,
      "Report status mismatch. Expected: ".data ++ [squote] ++ expected ++ [squote] ++
        ", Found: ".data ++ [squote] ++ s ++ [squote])

/-- `PenetrationTestReportValidator.validate_text_field` (lines 96–103). -/
def validate_text_field (s field : List Char) : Bool × List Char :=
  if s = [] || (pyStrip s).length < 2 then
    (false, field ++ " field is empty or too short".data)
  else
    (true, field ++ " field contains valid text".data)

/-- Field type dispatch data from `self.required_fields` (lines 12–18):
`'text'` with an `expected_value` dispatches to the status validator. -/
inductive FieldType
  | date
  | ip
  | statusText (expected : List Char)
  | text

/-- The `required_fields` table, in insertion order. -/
def required_fields : List (List Char × FieldType) :=
  [("Preliminary Date".data, .date),
   ("Report Issued Date".data, .date),
   ("Report Status".data, .statusText "Preliminary Report".data),
   ("VA Manager".data, .text),
   ("IP Address".data, .ip)]

/-- The per-field validator dispatch of `validate_pdf` (lines 140–147). -/
def dispatchValidate (t : FieldType) (name v : List Char) : Bool × List Char :=
  match t with
  | .date => validate_date v
  | .ip => validate_ip_address v
  | .statusText exp => validate_report_status v exp
  | .text => validate_text_field v name

structure FieldResult where
  value : List Char
  is_valid : Bool
  message : List Char
  deriving DecidableEq

structure VResult where
  file_path : List Char
  validation_passed : Bool
  fields : List (List Char × FieldResult)
  errors : List (List Char)
  warnings : List (List Char)
  deriving DecidableEq

/-- `PenetrationTestReportValidator.validate_pdf` (lines 105–162).  The PDF
backend interaction (`pdfplumber.open`, `pdf.pages[0]`, `extract_text`) is
modelled as an `Except`: `.error e` is an exception raised while opening or
reading (caught by the `except` clause and recorded, line 159–160), `.ok
text` is the extracted first-page text, with `[]` standing for both `None`
and the empty string (the code treats them identically via `if not text`).
The function is total by construction: no branch raises. -/
def validate_pdf (firstPage : Except (List Char) (List Char)) (pdf_path : List Char) :
    VResult :=
  let base : VResult :=
    { file_path := pdf_path, validation_passed := false,
      fields := [], errors := [], warnings := [] }
  match firstPage with
  | .error e => { base with errors := ["Error processing PDF: ".data ++ e] }
  | .ok text =>
    if text = [] then
      { base with errors := ["Could not extract text from PDF".data] }
    else
      let step :=
        required_fields.foldl
          (fun (acc : List (List Char × FieldResult) × List (List Char) × Bool) fld =>
            let v := extract_field_value text fld.1
            let r := dispatchValidate fld.2 fld.1 v
            (acc.1 ++ [(fld.1, ⟨v, r.1, r.2⟩)],
             acc.2.1 ++ (if r.1 then [] else [fld.1 ++ ": ".data ++ r.2]),
             acc.2.2 && r.1))
          ([], [], true)
      { base with fields := step.1, errors := step.2.1, validation_passed := step.2.2 }

end RV

namespace DC

/-- A filesystem entry: `isDir` distinguishes directories; every entry has a
stat size (`st_size`). -/
structure Entry where
  isDir : Bool
  size : Nat
  deriving DecidableEq

/-- A finite filesystem: an association list from paths (component lists) to
entries.  Lookup takes the first binding. -/
structure FS where
  entries : List (List String × Entry)

def lookupEntries : List (List String × Entry) → List String → Option Entry
  | [], _ => none
  | e :: rest, p => if e.1 = p then some e.2 else lookupEntries rest p

def FS.lookup (fs : FS) (p : List String) : Option Entry :=
  lookupEntries fs.entries p

/-- `Path.exists()`: true for files and directories alike. -/
def FS.pathExists (fs : FS) (p : List String) : Bool :=
  (fs.lookup p).isSome

/-- `Path.is_dir()`. -/
def FS.isdir (fs : FS) (p : List String) : Bool :=
  match fs.lookup p with
  | some e => e.isDir
  | none => false

def childNames : List (List String × Entry) → List String → List String
  | [], _ => []
  | e :: rest, d =>
    if e.1.dropLast = d ∧ e.1 ≠ [] then e.1.getLastD "" :: childNames rest d
    else childNames rest d

/-- Names of the direct children of directory `d`. -/
def FS.children (fs : FS) (d : List String) : List String :=
  childNames fs.entries d

/-- `Path.glob('*.nessus')` membership: the name ends in `.nessus` and is
not a hidden file (glob's `*` does not match a leading dot). -/
def globNessus (name : String) : Bool :=
  ".nessus".data.isSuffixOf name.data && !(name.data.head? == some '.')

/-- Deleting a single path from the filesystem. -/
def FS.remove (fs : FS) (p : List String) : FS :=
  ⟨fs.entries.filter (fun e => decide (e.1 ≠ p))⟩

/-- `str(Path)` on POSIX (the script is cross-platform; we model the Linux
run, `PATH_SEP = '/'`). -/
def pathStr (p : List String) : String :=
  String.intercalate "/" p

/-- `get_base_prefix` (dirchecker.py lines 44–49): the basename of the base
path up to the first hyphen (the whole basename when it has no hyphen —
`takeWhile` covers both branches). -/
def basePrefixOf (base : List String) : String :=
  ⟨(base.getLastD "").data.takeWhile (fun c => c != '-')⟩

/-- The six required NMAP filenames (lines 84–91), in order. -/
def nmapNames (pre : String) : List String :=
  [pre ++ "_TCP.gnmap", pre ++ "_TCP.nmap", pre ++ "_TCP.xml",
   pre ++ "_UDP.gnmap", pre ++ "_UDP.nmap", pre ++ "_UDP.xml"]

/-- `f"{base_prefix}-Attack Surface Profile.xlsx"` (line 103). -/
def aspName (pre : String) : String :=
  pre ++ "-Attack Surface Profile.xlsx"

/-- `f"{file_size_kb:.1f}"` where `file_size_kb = file_size / 1024` as an
IEEE double.  For sizes below 2^53 the double equals the exact dyadic
rational size/1024, and Python's `.1f` rounds it half-to-even to one
decimal; this computes that rounding exactly with naturals. -/
def formatKB (size : Nat) : String :=
  let n := size * 10
  let q := n / 1024
  let r := n % 1024
  let q := if 1024 < 2 * r ∨ (2 * r = 1024 ∧ q % 2 = 1) then q + 1 else q
  toString (q / 10) ++ "." ++ toString (q % 10)

/-- The result triple of the file checkers:
`(missing_files, existing_files, file_issues)`. -/
abbrev Triple := List String × List String × List String

/-- Lines 72–79 of check_sb_files: the NVA/NESSUS section
(`nessus_files = list(nessus_path.glob('*.nessus'))`, written inline). -/
def nessusBlock (fs : FS) (base : List String) : Triple :=
  if fs.pathExists (base ++ ["NVA", "NESSUS"]) then
    if ((fs.children (base ++ ["NVA", "NESSUS"])).filter globNessus).isEmpty then
      (["NVA/NESSUS/*.nessus"], [], [])
    else
      ([], ["NVA/NESSUS/*.nessus (" ++
          toString ((fs.children (base ++ ["NVA", "NESSUS"])).filter globNessus).length ++
          " file(s) found)"], [])
  else ([], [], [])

/-- Lines 81–98 of check_sb_files: the NVA/NMAP section.  The loop appends
each required name to the existing or the missing list in order, which is
the same as filtering the ordered name list. -/
def nmapBlock (fs : FS) (base : List String) : Triple :=
  if fs.pathExists (base ++ ["NVA", "NMAP"]) then
    (((nmapNames (basePrefixOf base)).filter
        (fun n => !fs.pathExists (base ++ ["NVA", "NMAP", n]))).map
       (fun n => "NVA/NMAP/" ++ n),
     ((nmapNames (basePrefixOf base)).filter
        (fun n => fs.pathExists (base ++ ["NVA", "NMAP", n]))).map
       (fun n => "NVA/NMAP/" ++ n),
     [])
  else ([], [], [])

/-- Lines 100–115 of check_sb_files (textually identical to lines 132–147 of
check_other_files): the REQUESTINFO Attack Surface Profile section.  The
source compares `file_size / 1024 > 25` on doubles; since every natural
size ≤ 25600 is exactly representable and size/1024 is exact below 2^53
(and far above 25 beyond that), the comparison holds exactly when
`25600 < size`. -/
def aspBlock (fs : FS) (base : List String) : Triple :=
  if fs.pathExists (base ++ ["REQUESTINFO"]) then
    let name := aspName (basePrefixOf base)
    match fs.lookup (base ++ ["REQUESTINFO", name]) with
    | some e =>
      if 25600 < e.size then
        ([], ["REQUESTINFO/" ++ name ++ " (" ++ formatKB e.size ++ " KB)"], [])
      else
        ([], [],
         ["REQUESTINFO/" ++ name ++ " - File too small (" ++ formatKB e.size ++
            " KB, requires > 25 KB)"])
    | none => (["REQUESTINFO/" ++ name], [], [])
  else ([], [], [])

/-- Concatenate section results: the source appends to the three shared
lists section by section. -/
def combine3 (a b c : Triple) : Triple :=
  (a.1 ++ b.1 ++ c.1, a.2.1 ++ b.2.1 ++ c.2.1, a.2.2 ++ b.2.2 ++ c.2.2)

/-- `check_sb_files` (lines 59–117). -/
def check_sb_files (fs : FS) (base : List String) : Triple :=
  combine3 (nessusBlock fs base) (nmapBlock fs base) (aspBlock fs base)

/-- `check_other_files` (lines 119–149): only the REQUESTINFO section. -/
def check_other_files (fs : FS) (base : List String) : Triple :=
  aspBlock fs base

/-- `REQUIRED_STRUCTURE` (lines 38–42), in insertion order. -/
def REQUIRED_STRUCTURE : List (String × List String) :=
  [("NVA", ["NESSUS", "NMAP", "QUALYS"]), ("REPORTS", []), ("REQUESTINFO", [])]

/-- `check_directory_structure` (lines 151–191); returns
`(is_valid, missing_dirs, existing_dirs)`. -/
def check_directory_structure (fs : FS) (base : List String) :
    Bool × List String × List String :=
  if !fs.pathExists base then (false, [pathStr base], [])
  else if !fs.isdir base then (false, [pathStr base ++ " (not a directory)"], [])
  else
    let step := REQUIRED_STRUCTURE.foldl
      (fun (acc : List String × List String) md =>
        let mp := base ++ [md.1]
        if !fs.pathExists mp then (acc.1 ++ [pathStr mp], acc.2)
        else
          md.2.foldl
            (fun (acc2 : List String × List String) sd =>
              let sp := mp ++ [sd]
              if !fs.pathExists sp then (acc2.1 ++ [pathStr sp], acc2.2)
              else (acc2.1, acc2.2 ++ [pathStr sp]))
            (acc.1, acc.2 ++ [pathStr mp]))
      ([], [pathStr base])
    (step.1.isEmpty, step.1, step.2)

/-- The overall verdict computed in `print_results` (lines 244–245):
directories valid, no missing files, no file issues. -/
def overallValid (dir_valid : Bool) (missing_files file_issues : List String) : Bool :=
  dir_valid && missing_files.isEmpty && file_issues.isEmpty

/-- Python `str.upper()` (ASCII). -/
def pyUpper (s : String) : String :=
  ⟨s.data.map Char.toUpper⟩

/-- The exit-code behaviour of `main` (lines 291–324) after argument
parsing: directory check, test-type dispatch on `test_type.upper() == 'SB'`,
`sys.exit(0 if success else 1)`. -/
def mainExit (fs : FS) (base : List String) (test_type : String) : Nat :=
  let d := check_directory_structure fs base
  let f := if pyUpper test_type = "SB" then check_sb_files fs base
           else check_other_files fs base
  if overallValid d.1 f.1 f.2.2 then 0 else 1

/-- A concrete fully populated SB-type tree used as an evaluation fixture. -/
def exampleBase : List String := ["ABC123-20240115"]

/-- The entries of the fixture tree: all required directories, one `.nessus`
file, the six NMAP files, and an Attack Surface Profile of 26000 bytes. -/
def exampleTree : FS :=
  ⟨[(exampleBase, ⟨true, 4096⟩),
    (exampleBase ++ ["NVA"], ⟨true, 4096⟩),
    (exampleBase ++ ["NVA", "NESSUS"], ⟨true, 4096⟩),
    (exampleBase ++ ["NVA", "NMAP"], ⟨true, 4096⟩),
    (exampleBase ++ ["NVA", "QUALYS"], ⟨true, 4096⟩),
    (exampleBase ++ ["REPORTS"], ⟨true, 4096⟩),
    (exampleBase ++ ["REQUESTINFO"], ⟨true, 4096⟩),
    (exampleBase ++ ["NVA", "NESSUS", "scan.nessus"], ⟨false, 100⟩),
    (exampleBase ++ ["NVA", "NMAP", "ABC123_TCP.gnmap"], ⟨false, 10⟩),
    (exampleBase ++ ["NVA", "NMAP", "ABC123_TCP.nmap"], ⟨false, 10⟩),
    (exampleBase ++ ["NVA", "NMAP", "ABC123_TCP.xml"], ⟨false, 10⟩),
    (exampleBase ++ ["NVA", "NMAP", "ABC123_UDP.gnmap"], ⟨false, 10⟩),
    (exampleBase ++ ["NVA", "NMAP", "ABC123_UDP.nmap"], ⟨false, 10⟩),
    (exampleBase ++ ["NVA", "NMAP", "ABC123_UDP.xml"], ⟨false, 10⟩),
    (exampleBase ++ ["REQUESTINFO", "ABC123-Attack Surface Profile.xlsx"], ⟨false, 26000⟩)]⟩

end DC

namespace RV

/-- Modelled from the spec (§4.2 tier 1), for comparison with the source:
collapse all rows of all tables into a first-cell → second-cell map (later
rows overwrite earlier ones on key collision) and return the trimmed second
cell of the row whose trimmed first cell equals the field name, provided it
is non-empty.  The source has no counterpart of this tier. -/
def tableLookupSpec (tables : List (List (List (List Char)))) (field : List Char) :
    Option (List Char) :=
  let rows := tables.flatten
  let entries := rows.filterMap fun r =>
    match r with
    | c1 :: c2 :: _ => some (pyStrip c1, c2)
    | _ => none
  match entries.reverse.find? (fun e => decide (e.1 = field)) with
  | some e =>
    let v := pyStrip e.2
    if v.isEmpty then none else some v
  | none => none

/-- Octets of a dotted quad (four period-separated groups of 1–3 digits)
parsed at the head of the string, if any. -/
def digitGroupsDot : Nat → List Char → Option (List Nat)
  | 0, _ => none
  | 1, s =>
    let n := digitRun s
    if okLen 1 3 n then some [partVal (s.takeWhile Char.isDigit)] else none
  | Nat.succ (Nat.succ k), s =>
    let n := digitRun s
    if okLen 1 3 n then
      match s.drop n with
      | c :: r =>
        if c = '.' then
          (digitGroupsDot (k + 1) r).map (partVal (s.takeWhile Char.isDigit) :: ·)
        else none
      | [] => none
    else none

/-- Octet lists of all dotted-quad substrings of `s` (one candidate start
position per suffix). -/
def scanQuads : List Char → List (List Nat)
  | [] => []
  | c :: t =>
    match digitGroupsDot 4 (c :: t) with
    | some q => q :: scanQuads t
    | none => scanQuads t

/-- Modelled from the spec (§4.3 ip), for comparison with the source: scan
the captured value for all dotted-quad substrings; valid iff at least one is
found and every found octet is in [0, 255]. -/
def ipScanValidSpec (s : List Char) : Bool :=
  !(scanQuads s).isEmpty &&
    (scanQuads s).all (fun q => q.all (fun o => decide (o ≤ 255)))

/-- No two adjacent whitespace characters (whitespace runs are collapsed). -/
def wsOkB : List Char → Bool
  | [] => true
  | [_] => true
  | a :: b :: rest => !(isWs a && isWs b) && wsOkB (b :: rest)

/-- Every whitespace character is a plain space. -/
def allWsSpace (v : List Char) : Bool :=
  v.all (fun c => !isWs c || c = ' ')

end RV

/-- C2 counterexample: `validate_date` does shape matching only, so the
impossible calendar date `02/30/2025` is accepted, and the spec's fourth
format `YYYY/MM/DD` is not among the accepted shapes, so the real calendar
date `2025/02/14` is rejected — both contradict the claim that validity
coincides with strict calendar parsing under the four listed formats. -/
theorem claim2_counterexample :
    (RV.validate_date "02/30/2025".data).fst = true ∧
    (RV.validate_date "2025/02/14".data).fst = false := by
  exact ⟨by decide, by decide⟩

/-- C2 as amended: `validate_date` accepts exactly the shapes
`\d{1,2}/\d{1,2}/\d{4}`, `\d{1,2}-\d{1,2}-\d{4}`, `\d{4}-\d{1,2}-\d{1,2}`
on the trimmed value, with no calendar validation: `02/30/2025` and even
`13/45/2025` pass, `2025-02-14` and ` 1/2/2025 ` pass, while the
`YYYY/MM/DD` rendering `2025/02/14` and the short `1/2/25` fail. -/
theorem claim2_amended :
    (RV.validate_date "02/30/2025".data).fst = true ∧
    (RV.validate_date "13/45/2025".data).fst = true ∧
    (RV.validate_date "2025-02-14".data).fst = true ∧
    (RV.validate_date " 1/2/2025 ".data).fst = true ∧
    (RV.validate_date "2025/02/14".data).fst = false ∧
    (RV.validate_date "1/2/25".data).fst = false := by
  refine ⟨by decide, by decide, by decide, by decide, by decide, by decide⟩

/-- C3 counterexample: the claim says `validate_ip_address` scans for all
dotted-quad substrings and is valid iff all found octets are in range; the
spec-modelled scanner accepts `10.0.0.1 10.0.0.2` but the source, which
matches the whole trimmed value against a single-quad pattern, rejects it;
and on the claim's own vector `10.0.0.1 and 10.0.0.999` the source reports
a format error quoting the whole input rather than naming `10.0.0.999` as
out of range. -/
theorem claim3_counterexample :
    RV.ipScanValidSpec "10.0.0.1 10.0.0.2".data = true ∧
    (RV.validate_ip_address "10.0.0.1 10.0.0.2".data).fst = false ∧
    (RV.validate_ip_address "10.0.0.1 and 10.0.0.999".data).snd =
      "Invalid IP address format: ".data ++ [RV.squote] ++
        "10.0.0.1 and 10.0.0.999".data ++ [RV.squote] := by
  refine ⟨by decide, by decide, by decide⟩

/-- C3 as amended: `validate_ip_address` is valid iff the entire trimmed
value is one dotted quad with all octets ≤ 255; a whole-string quad with an
out-of-range octet gets the out-of-range message, while any multi-IP string
is rejected with the format-error message quoting the whole input. -/
theorem claim3_amended :
    (RV.validate_ip_address "10.0.0.1".data).fst = true ∧
    (RV.validate_ip_address " 10.0.0.999 ".data) =
      (false, "IP address out of valid range: ".data ++ [RV.squote] ++
        " 10.0.0.999 ".data ++ [RV.squote]) ∧
    (RV.validate_ip_address "10.0.0.1 and 10.0.0.999".data).fst = false ∧
    (RV.validate_ip_address "10.0.0.1 10.0.0.2".data).fst = false ∧
    (RV.validate_ip_address "256.1.1.1".data).fst = false := by
  refine ⟨by decide, by decide, by decide, by decide, by decide⟩

/-- C1 counterexample: the claim requires a table row
`["Report Status", "Preliminary Report"]` to win over a conflicting loose
text match, but `extract_field_value` takes no table input at all: on a
first page whose raw text contains the conflicting match
`Report Status: Final Report` before the table-rendered row text, the
source returns `Final Report`, not the table value required by the claim. -/
theorem claim1_counterexample :
    RV.tableLookupSpec [[["Report Status".data, "Preliminary Report".data]]]
        "Report Status".data = some "Preliminary Report".data ∧
    RV.extract_field_value
        "Report Status: Final Report\nReport Status Preliminary Report".data
        "Report Status".data = "Final Report".data ∧
    "Final Report".data ≠ "Preliminary Report".data := by
  refine ⟨by decide, by decide, by decide⟩

/-- C1 as amended: field extraction consults only the page text — there is
no table-lookup tier — and the first regex tier (label followed by a
same-line value) has priority: whenever pattern 1 produces a cleaned value
of meaningful length, that value is returned. -/
theorem claim1_amended : ∀ (text field v : List Char),
    RV.tryClean (RV.searchPat1 field text) = some v →
    RV.extract_field_value text field = v := by
  intro text field v h
  simp only [RV.extract_field_value, h]

/-- Witness for the C1 amended theorem at the counterexample page text. -/
theorem claim1_witness :
    RV.extract_field_value
        "Report Status: Final Report\nReport Status Preliminary Report".data
        "Report Status".data = "Final Report".data :=
  claim1_amended _ _ _ (by decide)

/-- C6: `validate_pdf` is total (the embedding returns a result on every
backend outcome); when the PDF backend raises while opening or reading
(`Except.error`), the exception text is recorded as an
`Error processing PDF:` entry in `errors` and `validation_passed` is
`false`. -/
theorem claim6_validate_pdf_catches : ∀ (e pdf_path : List Char),
    (RV.validate_pdf (.error e) pdf_path).validation_passed = false ∧
    ("Error processing PDF: ".data ++ e) ∈ (RV.validate_pdf (.error e) pdf_path).errors := by
  intro e p
  exact ⟨rfl, by simp [RV.validate_pdf]⟩

/-- C7: when the base directory does not exist, `check_directory_structure`
returns invalid with exactly one missing entry — the base path itself — and
no existing entries (the function takes no test type, so this holds for
every test type). -/
theorem claim7_base_missing : ∀ (fs : DC.FS) (base : List String),
    fs.lookup base = none →
    DC.check_directory_structure fs base = (false, [DC.pathStr base], []) := by
  intro fs base h
  simp [DC.check_directory_structure, DC.FS.pathExists, h]

/-- Witness for C7 on a concrete empty filesystem. -/
theorem claim7_witness :
    DC.check_directory_structure ⟨[]⟩ ["QC"] = (false, ["QC"], []) := by
  rw [claim7_base_missing ⟨[]⟩ ["QC"] rfl]
  decide

/-- C8 counterexample: the claim says a missing base yields all required
paths (base and the six subdirectories) counted missing, but the source
returns only the base path: `QC/NVA` is not among the missing entries. -/
theorem claim8_counterexample :
    DC.check_directory_structure ⟨[]⟩ ["QC"] = (false, ["QC"], []) ∧
    "QC/NVA" ∉ (DC.check_directory_structure ⟨[]⟩ ["QC"]).2.1 := by
  refine ⟨by decide, by decide⟩

/-- C8 as amended: when the base directory does not exist or is not a
directory, the structure check reports invalid with a single missing entry —
the base path (suffixed ` (not a directory)` in the non-directory case) —
zero existing entries, and no deeper checks. -/
theorem claim8_amended : ∀ (fs : DC.FS) (base : List String),
    (fs.lookup base = none →
      DC.check_directory_structure fs base = (false, [DC.pathStr base], [])) ∧
    (∀ e : DC.Entry, fs.lookup base = some e → e.isDir = false →
      DC.check_directory_structure fs base =
        (false, [DC.pathStr base ++ " (not a directory)"], [])) := by
  intro fs base
  constructor
  · intro h
    simp [DC.check_directory_structure, DC.FS.pathExists, h]
  · intro e h hd
    simp [DC.check_directory_structure, DC.FS.pathExists, DC.FS.isdir, h, hd]

/-- Witness for the C8 amended theorem: a base path that exists as a file. -/
theorem claim8_witness :
    DC.check_directory_structure ⟨[(["QC"], ⟨false, 7⟩)]⟩ ["QC"] =
      (false, ["QC (not a directory)"], []) := by
  rw [(claim8_amended ⟨[(["QC"], ⟨false, 7⟩)]⟩ ["QC"]).2 ⟨false, 7⟩ rfl rfl]
  decide

namespace RV

theorem dropWhile_head_false (p : Char → Bool) :
    ∀ (l : List Char) (c : Char) (cs : List Char), l.dropWhile p = c :: cs → p c = false := by
  intro l
  induction l with
  | nil => intro c cs h; simp at h
  | cons a t ih =>
    intro c cs h
    rw [List.dropWhile_cons] at h
    by_cases hp : p a = true
    · rw [if_pos hp] at h
      exact ih c cs h
    · rw [if_neg hp] at h
      cases h
      simpa using hp

theorem getLast?_dropWhile_eq (p : Char → Bool) :
    ∀ (l : List Char), l.dropWhile p ≠ [] → (l.dropWhile p).getLast? = l.getLast? := by
  intro l
  induction l with
  | nil => intro h; simp at h
  | cons a t ih =>
    intro h
    rw [List.dropWhile_cons] at h ⊢
    by_cases hp : p a = true
    · rw [if_pos hp] at h ⊢
      have ht : t ≠ [] := by
        intro he
        rw [he] at h
        simp at h
      cases t with
      | nil => exact absurd rfl ht
      | cons b l2 => rw [List.getLast?_cons_cons]; exact ih h
    · rw [if_neg hp]

theorem pyStrip_getLast (s : List Char) (c : Char) :
    (pyStrip s).getLast? = some c → isWs c = false := by
  intro h
  unfold pyStrip at h
  rw [List.getLast?_reverse] at h
  cases hd : ((s.dropWhile isWs).reverse).dropWhile isWs with
  | nil => rw [hd] at h; simp at h
  | cons c0 cs =>
    rw [hd] at h
    simp at h
    subst h
    exact dropWhile_head_false isWs _ c0 cs hd

theorem collapse_cons_nonws {b : Char} (hb : isWs b = false) (rest : List Char) :
    collapseWs (b :: rest) = b :: collapseWs rest := by
  cases rest with
  | nil => simp [collapseWs, hb]
  | cons r0 rs => simp [collapseWs, hb]

theorem collapse_ne_nil : ∀ (x : List Char), x ≠ [] → collapseWs x ≠ []
  | [], h => absurd rfl h
  | [c], _ => by cases hw : isWs c <;> simp [collapseWs, hw]
  | a :: b :: rest, _ => by
    by_cases hab : (isWs a && isWs b) = true
    · simpa [collapseWs, hab] using collapse_ne_nil (b :: rest) (by simp)
    · simp [collapseWs, hab]

theorem wsOkB_cons_of_head_false {a : Char} (ha : isWs a = false) :
    ∀ (Y : List Char), wsOkB Y = true → wsOkB (a :: Y) = true := by
  intro Y hy
  cases Y with
  | nil => rfl
  | cons y0 ys => simp [wsOkB, ha, hy]

theorem collapse_wsOk : ∀ (x : List Char), wsOkB (collapseWs x) = true
  | [] => rfl
  | [c] => by cases hw : isWs c <;> simp [collapseWs, hw, wsOkB]
  | a :: b :: rest => by
    have hrec := collapse_wsOk (b :: rest)
    by_cases hab : (isWs a && isWs b) = true
    · simpa [collapseWs, hab] using hrec
    · by_cases ha : isWs a = true
      · have hb : isWs b = false := by
          cases hbb : isWs b
          · rfl
          · exact absurd (by simp [ha, hbb]) hab
        have hb' := collapse_cons_nonws hb rest
        rw [hb'] at hrec
        rw [show collapseWs (a :: b :: rest) = ' ' :: collapseWs (b :: rest) from by
          simp [collapseWs, hab, ha, hb]]
        rw [hb']
        simp [wsOkB, hb, hrec]
      · have ha' : isWs a = false := by
          cases haa : isWs a
          · rfl
          · exact absurd haa ha
        rw [show collapseWs (a :: b :: rest) = a :: collapseWs (b :: rest) from by
          simp [collapseWs, hab, ha']]
        exact wsOkB_cons_of_head_false ha' _ hrec

theorem collapse_allWsSpace : ∀ (x : List Char), allWsSpace (collapseWs x) = true
  | [] => rfl
  | [c] => by cases hw : isWs c <;> simp [collapseWs, hw, allWsSpace]
  | a :: b :: rest => by
    have hrec := collapse_allWsSpace (b :: rest)
    by_cases hab : (isWs a && isWs b) = true
    · simpa [collapseWs, hab] using hrec
    · by_cases ha : isWs a = true
      · have hb : isWs b = false := by
          cases hbb : isWs b
          · rfl
          · exact absurd (by simp [ha, hbb]) hab
        rw [show collapseWs (a :: b :: rest) = ' ' :: collapseWs (b :: rest) from by
          simp [collapseWs, hab, ha, hb]]
        simp [allWsSpace] at hrec ⊢
        exact hrec
      · have ha' : isWs a = false := by
          cases haa : isWs a
          · rfl
          · exact absurd haa ha
        rw [show collapseWs (a :: b :: rest) = a :: collapseWs (b :: rest) from by
          simp [collapseWs, hab, ha']]
        simp [allWsSpace, ha'] at hrec ⊢
        exact hrec

theorem getLast?_cons_ne {c : Char} {Y : List Char} (h : Y ≠ []) :
    (c :: Y).getLast? = Y.getLast? := by
  cases Y with
  | nil => exact absurd rfl h
  | cons y0 ys => exact List.getLast?_cons_cons

theorem collapse_getLast :
    ∀ (x : List Char), (∀ c, x.getLast? = some c → isWs c = false) →
      ∀ c, (collapseWs x).getLast? = some c → isWs c = false
  | [], _ => by intro c hc; simp [collapseWs] at hc
  | [c0], h => by
    intro c hc
    cases hw : isWs c0 with
    | true => exact absurd (h c0 rfl) (by simp [hw])
    | false =>
      simp [collapseWs, hw] at hc
      subst hc
      exact hw
  | a :: b :: rest, h => by
    intro c hc
    have h2 : ∀ c, (b :: rest).getLast? = some c → isWs c = false := by
      intro c hc2
      exact h c (by rw [List.getLast?_cons_cons]; exact hc2)
    by_cases hab : (isWs a && isWs b) = true
    · rw [show collapseWs (a :: b :: rest) = collapseWs (b :: rest) by
        simp [collapseWs, hab]] at hc
      exact collapse_getLast (b :: rest) h2 c hc
    · rw [show collapseWs (a :: b :: rest) =
          (if isWs a then ' ' else a) :: collapseWs (b :: rest) by
        simp [collapseWs, hab]] at hc
      rw [getLast?_cons_ne (collapse_ne_nil (b :: rest) (by simp))] at hc
      exact collapse_getLast (b :: rest) h2 c hc

theorem cleanValue_head (raw : List Char) (c : Char) (cs : List Char) :
    cleanValue raw = c :: cs → leadJunk c = false := by
  intro h
  unfold cleanValue at h
  cases hz : dropLead (pyStrip raw) with
  | nil => rw [hz] at h; simp [collapseWs] at h
  | cons z0 zt =>
    have hj : leadJunk z0 = false := dropWhile_head_false leadJunk _ z0 zt hz
    have hw0 : isWs z0 = false := by
      cases hww : isWs z0
      · rfl
      · rw [leadJunk, hww] at hj; simp at hj
    rw [hz, collapse_cons_nonws hw0] at h
    cases h
    exact hj

theorem cleanValue_getLast (raw : List Char) (c : Char) :
    (cleanValue raw).getLast? = some c → isWs c = false := by
  intro h
  unfold cleanValue at h
  refine collapse_getLast (dropLead (pyStrip raw)) ?_ c h
  intro c2 hc2
  have hne : dropLead (pyStrip raw) ≠ [] := by
    intro he
    rw [he] at hc2
    simp at hc2
  unfold dropLead at hc2 hne
  rw [getLast?_dropWhile_eq leadJunk (pyStrip raw) hne] at hc2
  exact pyStrip_getLast raw c2 hc2

theorem tryClean_some {r : Option (List Char)} {v : List Char} :
    tryClean r = some v → 2 ≤ v.length ∧ ∃ g, v = cleanValue g := by
  intro h
  cases r with
  | none => simp [tryClean] at h
  | some g =>
    have h' : (if 2 ≤ (cleanValue g).length then some (cleanValue g) else none) = some v := h
    by_cases hl : 2 ≤ (cleanValue g).length
    · rw [if_pos hl] at h'
      cases h'
      exact ⟨hl, g, rfl⟩
    · rw [if_neg hl] at h'
      cases h'

theorem extract_result_cases (text field : List Char) :
    extract_field_value text field = [] ∨
      ∃ g, extract_field_value text field = cleanValue g ∧ 2 ≤ (cleanValue g).length := by
  unfold extract_field_value
  cases h1 : tryClean (searchPat1 field text) with
  | some v =>
    obtain ⟨hl, g, hg⟩ := tryClean_some h1
    exact Or.inr ⟨g, by simp [hg], by rw [← hg]; exact hl⟩
  | none =>
    cases h2 : tryClean (searchPat2 field text) with
    | some v =>
      obtain ⟨hl, g, hg⟩ := tryClean_some h2
      exact Or.inr ⟨g, by simp [hg], by rw [← hg]; exact hl⟩
    | none =>
      cases h3 : tryClean (searchPat3 field text) with
      | some v =>
        obtain ⟨hl, g, hg⟩ := tryClean_some h3
        exact Or.inr ⟨g, by simp [hg], by rw [← hg]; exact hl⟩
      | none => exact Or.inl rfl

end RV

/-- C9: for every page text and field name, `extract_field_value` returns
either the empty string or a cleaned value: length at least 2 (so never a
single character), first character neither whitespace nor `:` nor `-`, no
trailing whitespace, every whitespace character a plain space, and no two
adjacent whitespace characters (runs collapsed to single spaces). -/
theorem claim9_extract_clean : ∀ (text field : List Char),
    RV.extract_field_value text field = [] ∨
      (2 ≤ (RV.extract_field_value text field).length ∧
       (∀ c cs, RV.extract_field_value text field = c :: cs → RV.leadJunk c = false) ∧
       RV.wsOkB (RV.extract_field_value text field) = true ∧
       RV.allWsSpace (RV.extract_field_value text field) = true ∧
       (∀ c, (RV.extract_field_value text field).getLast? = some c → RV.isWs c = false)) := by
  intro text field
  rcases RV.extract_result_cases text field with h | ⟨g, he, hl⟩
  · exact Or.inl h
  · refine Or.inr ⟨by rw [he]; exact hl, ?_, ?_, ?_, ?_⟩
    · intro c cs hc
      exact RV.cleanValue_head g c cs (by rw [← he]; exact hc)
    · rw [he]; exact RV.collapse_wsOk _
    · rw [he]; exact RV.collapse_allWsSpace _
    · intro c hc
      exact RV.cleanValue_getLast g c (by rw [← he]; exact hc)

namespace DC

theorem lookupEntries_filter_ne :
    ∀ (l : List (List String × Entry)) (q p : List String), p ≠ q →
      lookupEntries (l.filter (fun e => decide (e.1 ≠ q))) p = lookupEntries l p := by
  intro l
  induction l with
  | nil => intro q p _; rfl
  | cons e t ih =>
    intro q p hpq
    rw [List.filter_cons]
    by_cases he : e.1 = q
    · rw [if_neg (by simp [he])]
      rw [show lookupEntries (e :: t) p = lookupEntries t p from by
        simp [lookupEntries, he, Ne.symm hpq]]
      exact ih q p hpq
    · rw [if_pos (by simp [he])]
      by_cases hep : e.1 = p
      · simp [lookupEntries, hep]
      · simp only [lookupEntries, hep, if_false]
        exact ih q p hpq

theorem lookupEntries_filter_self :
    ∀ (l : List (List String × Entry)) (q : List String),
      lookupEntries (l.filter (fun e => decide (e.1 ≠ q))) q = none := by
  intro l
  induction l with
  | nil => intro q; rfl
  | cons e t ih =>
    intro q
    rw [List.filter_cons]
    by_cases he : e.1 = q
    · rw [if_neg (by simp [he])]
      exact ih q
    · rw [if_pos (by simp [he])]
      simp only [lookupEntries, he, if_false]
      exact ih q

theorem lookup_remove_ne (fs : FS) {p q : List String} (h : p ≠ q) :
    (fs.remove q).lookup p = fs.lookup p :=
  lookupEntries_filter_ne fs.entries q p h

theorem lookup_remove_self (fs : FS) (q : List String) :
    (fs.remove q).lookup q = none :=
  lookupEntries_filter_self fs.entries q

theorem pathExists_remove_ne (fs : FS) {p q : List String} (h : p ≠ q) :
    (fs.remove q).pathExists p = fs.pathExists p := by
  unfold FS.pathExists
  rw [lookup_remove_ne fs h]

theorem pathExists_remove_self (fs : FS) (q : List String) :
    (fs.remove q).pathExists q = false := by
  unfold FS.pathExists
  rw [lookup_remove_self fs q]
  rfl

theorem isdir_remove_ne (fs : FS) {p q : List String} (h : p ≠ q) :
    (fs.remove q).isdir p = fs.isdir p := by
  unfold FS.isdir
  rw [lookup_remove_ne fs h]

theorem mem_childNames :
    ∀ (l : List (List String × Entry)) (d : List String) (n : String) (e : Entry),
      (d ++ [n], e) ∈ l → n ∈ childNames l d := by
  intro l
  induction l with
  | nil => intro d n e h; simp at h
  | cons hd t ih =>
    intro d n e h
    rcases List.mem_cons.mp h with heq | hmem
    · rw [childNames, ← heq]
      rw [if_pos ⟨List.dropLast_concat, by simp⟩]
      simp [List.getLastD_eq_getLast?, List.getLast?_concat]
    · rw [childNames]
      split
      · exact List.mem_cons_of_mem _ (ih d n e hmem)
      · exact ih d n e hmem

theorem nessusBlock_issues_nil (fs : FS) (base : List String) :
    (nessusBlock fs base).2.2 = [] := by
  unfold nessusBlock
  split
  · split <;> rfl
  · rfl

theorem nmapBlock_issues_nil (fs : FS) (base : List String) :
    (nmapBlock fs base).2.2 = [] := by
  unfold nmapBlock
  split <;> rfl

theorem aspBlock_pass (fs : FS) (base : List String) (e : Entry)
    (hdir : fs.pathExists (base ++ ["REQUESTINFO"]) = true)
    (hlk : fs.lookup (base ++ ["REQUESTINFO", aspName (basePrefixOf base)]) = some e)
    (hsz : 25600 < e.size) :
    aspBlock fs base =
      ([], ["REQUESTINFO/" ++ aspName (basePrefixOf base) ++ " (" ++ formatKB e.size ++ " KB)"],
       []) := by
  unfold aspBlock
  rw [hdir]
  simp only [if_true]
  rw [hlk]
  dsimp only
  rw [if_pos hsz]

theorem aspBlock_small (fs : FS) (base : List String) (e : Entry)
    (hdir : fs.pathExists (base ++ ["REQUESTINFO"]) = true)
    (hlk : fs.lookup (base ++ ["REQUESTINFO", aspName (basePrefixOf base)]) = some e)
    (hsz : ¬25600 < e.size) :
    aspBlock fs base =
      ([], [],
       ["REQUESTINFO/" ++ aspName (basePrefixOf base) ++ " - File too small (" ++
          formatKB e.size ++ " KB, requires > 25 KB)"]) := by
  unfold aspBlock
  rw [hdir]
  simp only [if_true]
  rw [hlk]
  dsimp only
  rw [if_neg hsz]

theorem aspBlock_missing (fs : FS) (base : List String)
    (hdir : fs.pathExists (base ++ ["REQUESTINFO"]) = true)
    (hlk : fs.lookup (base ++ ["REQUESTINFO", aspName (basePrefixOf base)]) = none) :
    aspBlock fs base = (["REQUESTINFO/" ++ aspName (basePrefixOf base)], [], []) := by
  unfold aspBlock
  rw [hdir]
  simp only [if_true]
  rw [hlk]

end DC

/-- C10: in `check_sb_files` and `check_other_files` no file entry is
recorded when the required parent directory is absent: a missing
`NVA/NESSUS`, `NVA/NMAP` or `REQUESTINFO` directory makes the corresponding
section contribute nothing to `missing_files`, `existing_files` or
`file_issues`, and a tree lacking all of them yields entirely empty file
lists, so the run can fail only through missing-directory entries. -/
theorem claim10_no_file_entries_without_parent : ∀ (fs : DC.FS) (base : List String),
    (fs.pathExists (base ++ ["NVA", "NESSUS"]) = false →
      DC.nessusBlock fs base = ([], [], [])) ∧
    (fs.pathExists (base ++ ["NVA", "NMAP"]) = false →
      DC.nmapBlock fs base = ([], [], [])) ∧
    (fs.pathExists (base ++ ["REQUESTINFO"]) = false →
      DC.aspBlock fs base = ([], [], []) ∧ DC.check_other_files fs base = ([], [], [])) ∧
    (fs.pathExists (base ++ ["NVA", "NESSUS"]) = false →
      fs.pathExists (base ++ ["NVA", "NMAP"]) = false →
      fs.pathExists (base ++ ["REQUESTINFO"]) = false →
      DC.check_sb_files fs base = ([], [], [])) := by
  intro fs base
  refine ⟨?_, ?_, ?_, ?_⟩
  · intro h; simp [DC.nessusBlock, h]
  · intro h; simp [DC.nmapBlock, h]
  · intro h
    exact ⟨by simp [DC.aspBlock, h], by simp [DC.check_other_files, DC.aspBlock, h]⟩
  · intro h1 h2 h3
    simp [DC.check_sb_files, DC.combine3, DC.nessusBlock, DC.nmapBlock, DC.aspBlock,
      h1, h2, h3]

/-- Witness for C10 on the empty filesystem. -/
theorem claim10_witness :
    DC.check_sb_files ⟨[]⟩ ["QC"] = ([], [], []) ∧
    DC.check_other_files ⟨[]⟩ ["QC"] = ([], [], []) :=
  ⟨(claim10_no_file_entries_without_parent ⟨[]⟩ ["QC"]).2.2.2 rfl rfl rfl,
   ((claim10_no_file_entries_without_parent ⟨[]⟩ ["QC"]).2.2.1 rfl).2⟩

/-- C4: in both `check_sb_files` and `check_other_files`, an Attack Surface
Profile file strictly larger than 25 KB (25600 bytes; the source's
`size/1024 > 25` double comparison is exact at this boundary) is listed as
existing; a present file of at most 25600 bytes is recorded as a file issue
and contributes nothing to the missing list; the file is recorded as
missing only when absent. -/
theorem claim4_asp_size_boundary : ∀ (fs : DC.FS) (base : List String),
    fs.pathExists (base ++ ["REQUESTINFO"]) = true →
    ((∀ e : DC.Entry,
        fs.lookup (base ++ ["REQUESTINFO", DC.aspName (DC.basePrefixOf base)]) = some e →
        (25600 < e.size →
          DC.check_other_files fs base =
            ([], ["REQUESTINFO/" ++ DC.aspName (DC.basePrefixOf base) ++ " (" ++
                DC.formatKB e.size ++ " KB)"], []) ∧
          ("REQUESTINFO/" ++ DC.aspName (DC.basePrefixOf base) ++ " (" ++
              DC.formatKB e.size ++ " KB)") ∈ (DC.check_sb_files fs base).2.1 ∧
          (DC.check_sb_files fs base).1 =
            (DC.nessusBlock fs base).1 ++ (DC.nmapBlock fs base).1 ∧
          (DC.check_sb_files fs base).2.2 = []) ∧
        (e.size ≤ 25600 →
          DC.check_other_files fs base =
            ([], [], ["REQUESTINFO/" ++ DC.aspName (DC.basePrefixOf base) ++
                " - File too small (" ++ DC.formatKB e.size ++ " KB, requires > 25 KB)"]) ∧
          (DC.check_sb_files fs base).2.2 =
            ["REQUESTINFO/" ++ DC.aspName (DC.basePrefixOf base) ++
                " - File too small (" ++ DC.formatKB e.size ++ " KB, requires > 25 KB)"] ∧
          (DC.check_sb_files fs base).1 =
            (DC.nessusBlock fs base).1 ++ (DC.nmapBlock fs base).1)) ∧
     (fs.lookup (base ++ ["REQUESTINFO", DC.aspName (DC.basePrefixOf base)]) = none →
        DC.check_other_files fs base =
          (["REQUESTINFO/" ++ DC.aspName (DC.basePrefixOf base)], [], []) ∧
        ("REQUESTINFO/" ++ DC.aspName (DC.basePrefixOf base)) ∈ (DC.check_sb_files fs base).1 ∧
        (DC.check_sb_files fs base).2.2 = [])) := by
  intro fs base hdir
  constructor
  · intro e hlk
    constructor
    · intro hsz
      have ha := DC.aspBlock_pass fs base e hdir hlk hsz
      refine ⟨ha, ?_, ?_, ?_⟩
      · simp [DC.check_sb_files, DC.combine3, ha]
      · simp [DC.check_sb_files, DC.combine3, ha]
      · simp [DC.check_sb_files, DC.combine3, ha,
          DC.nessusBlock_issues_nil, DC.nmapBlock_issues_nil]
    · intro hsz
      have ha := DC.aspBlock_small fs base e hdir hlk (by omega)
      refine ⟨ha, ?_, ?_⟩
      · simp [DC.check_sb_files, DC.combine3, ha,
          DC.nessusBlock_issues_nil, DC.nmapBlock_issues_nil]
      · simp [DC.check_sb_files, DC.combine3, ha]
  · intro hlk
    have ha := DC.aspBlock_missing fs base hdir hlk
    refine ⟨ha, ?_, ?_⟩
    · simp [DC.check_sb_files, DC.combine3, ha]
    · simp [DC.check_sb_files, DC.combine3, ha,
        DC.nessusBlock_issues_nil, DC.nmapBlock_issues_nil]

/-- Witness for C4 at the exact boundary: 25601 bytes passes as existing,
25600 bytes is a file issue (both render as 25.0 KB). -/
theorem claim4_witness :
    DC.check_other_files
        ⟨[(["ABC", "REQUESTINFO"], ⟨true, 4096⟩),
          (["ABC", "REQUESTINFO", "ABC-Attack Surface Profile.xlsx"], ⟨false, 25601⟩)]⟩
        ["ABC"] =
      ([], ["REQUESTINFO/ABC-Attack Surface Profile.xlsx (25.0 KB)"], []) ∧
    DC.check_other_files
        ⟨[(["ABC", "REQUESTINFO"], ⟨true, 4096⟩),
          (["ABC", "REQUESTINFO", "ABC-Attack Surface Profile.xlsx"], ⟨false, 25600⟩)]⟩
        ["ABC"] =
      ([], [],
       ["REQUESTINFO/ABC-Attack Surface Profile.xlsx - File too small (25.0 KB, requires > 25 KB)"]) := by
  constructor
  · rw [(((claim4_asp_size_boundary
        ⟨[(["ABC", "REQUESTINFO"], ⟨true, 4096⟩),
          (["ABC", "REQUESTINFO", "ABC-Attack Surface Profile.xlsx"], ⟨false, 25601⟩)]⟩
        ["ABC"] (by decide)).1 ⟨false, 25601⟩ (by decide)).1 (by decide)).1]
    decide
  · rw [(((claim4_asp_size_boundary
        ⟨[(["ABC", "REQUESTINFO"], ⟨true, 4096⟩),
          (["ABC", "REQUESTINFO", "ABC-Attack Surface Profile.xlsx"], ⟨false, 25600⟩)]⟩
        ["ABC"] (by decide)).1 ⟨false, 25600⟩ (by decide)).2 (by decide)).1]
    decide

namespace DC

theorem pathExists_of_isdir (fs : FS) (p : List String) :
    fs.isdir p = true → fs.pathExists p = true := by
  unfold FS.isdir FS.pathExists
  cases h : fs.lookup p
  · simp
  · simp

theorem ne_append_of_ne_suffix {base l1 l2 : List String} (h : l1 ≠ l2) :
    base ++ l1 ≠ base ++ l2 :=
  fun he => h (List.append_cancel_left he)

theorem mem_children (fs : FS) (d : List String) (n : String) (e : Entry)
    (h : (d ++ [n], e) ∈ fs.entries) : n ∈ fs.children d :=
  mem_childNames fs.entries d n e h

theorem nessusBlock_found (fs : FS) (base : List String)
    (hex : fs.pathExists (base ++ ["NVA", "NESSUS"]) = true)
    (nm : String) (en : Entry)
    (hmem : (base ++ ["NVA", "NESSUS", nm], en) ∈ fs.entries)
    (hg : globNessus nm = true) :
    (nessusBlock fs base).1 = [] := by
  unfold nessusBlock
  rw [hex]
  simp only [if_true]
  have hc : nm ∈ fs.children (base ++ ["NVA", "NESSUS"]) := by
    apply mem_children fs _ nm en
    rw [show (base ++ ["NVA", "NESSUS"]) ++ [nm] = base ++ ["NVA", "NESSUS", nm] from by simp]
    exact hmem
  have hfm : nm ∈ (fs.children (base ++ ["NVA", "NESSUS"])).filter globNessus :=
    List.mem_filter.mpr ⟨hc, hg⟩
  have hne : (fs.children (base ++ ["NVA", "NESSUS"])).filter globNessus ≠ [] :=
    List.ne_nil_of_mem hfm
  simp [List.isEmpty_eq_false.mpr hne]

theorem nmapBlock_full (fs : FS) (base : List String)
    (hex : fs.pathExists (base ++ ["NVA", "NMAP"]) = true)
    (hall : ∀ n ∈ nmapNames (basePrefixOf base),
      fs.pathExists (base ++ ["NVA", "NMAP", n]) = true) :
    (nmapBlock fs base).1 = [] := by
  unfold nmapBlock
  rw [hex]
  simp only [if_true]
  rw [List.filter_eq_nil_iff.mpr (by intro n hn; simp [hall n hn])]
  rfl

theorem nmapBlock_missing_mem (fs : FS) (base : List String) (n : String)
    (hex : fs.pathExists (base ++ ["NVA", "NMAP"]) = true)
    (hn : n ∈ nmapNames (basePrefixOf base))
    (hmiss : fs.pathExists (base ++ ["NVA", "NMAP", n]) = false) :
    ("NVA/NMAP/" ++ n) ∈ (nmapBlock fs base).1 := by
  unfold nmapBlock
  rw [hex]
  simp only [if_true]
  exact List.mem_map.mpr ⟨n, List.mem_filter.mpr ⟨hn, by rw [hmiss]; rfl⟩, rfl⟩

theorem dirCheck_valid (fs : FS) (base : List String)
    (h1 : fs.isdir base = true)
    (h2 : fs.pathExists (base ++ ["NVA"]) = true)
    (h3 : fs.pathExists (base ++ ["NVA", "NESSUS"]) = true)
    (h4 : fs.pathExists (base ++ ["NVA", "NMAP"]) = true)
    (h5 : fs.pathExists (base ++ ["NVA", "QUALYS"]) = true)
    (h6 : fs.pathExists (base ++ ["REPORTS"]) = true)
    (h7 : fs.pathExists (base ++ ["REQUESTINFO"]) = true) :
    (check_directory_structure fs base).1 = true := by
  have h0 : fs.pathExists base = true := pathExists_of_isdir fs base h1
  unfold check_directory_structure
  rw [h0, h1]
  simp [REQUIRED_STRUCTURE, List.append_assoc, h2, h3, h4, h5, h6, h7]

end DC

/-- C5: an SB-type run over a fully populated tree (all required directories
present, a globbed `.nessus` file in NVA/NESSUS, all six `<prefix>_TCP/_UDP`
files in NVA/NMAP, an Attack Surface Profile file above 25600 bytes) passes
with exit code 0; removing any single one of the six required NMAP files
makes the run fail with exit code 1 and that exact filename listed under
missing files. -/
theorem claim5_sb_full_and_removal : ∀ (fs : DC.FS) (base : List String),
    fs.isdir base = true →
    fs.pathExists (base ++ ["NVA"]) = true →
    fs.pathExists (base ++ ["NVA", "NESSUS"]) = true →
    fs.pathExists (base ++ ["NVA", "NMAP"]) = true →
    fs.pathExists (base ++ ["NVA", "QUALYS"]) = true →
    fs.pathExists (base ++ ["REPORTS"]) = true →
    fs.pathExists (base ++ ["REQUESTINFO"]) = true →
    ∀ (nm : String) (en : DC.Entry),
      (base ++ ["NVA", "NESSUS", nm], en) ∈ fs.entries →
      DC.globNessus nm = true →
    ∀ (ea : DC.Entry),
      fs.lookup (base ++ ["REQUESTINFO", DC.aspName (DC.basePrefixOf base)]) = some ea →
      25600 < ea.size →
    (∀ n ∈ DC.nmapNames (DC.basePrefixOf base),
        fs.pathExists (base ++ ["NVA", "NMAP", n]) = true) →
    DC.mainExit fs base "SB" = 0 ∧
    ∀ n ∈ DC.nmapNames (DC.basePrefixOf base),
      DC.mainExit (fs.remove (base ++ ["NVA", "NMAP", n])) base "SB" = 1 ∧
      ("NVA/NMAP/" ++ n) ∈ (DC.check_sb_files (fs.remove (base ++ ["NVA", "NMAP", n])) base).1 := by
  intro fs base h1 h2 h3 h4 h5 h6 h7 nm en hmem hg ea hlk hsz hall
  constructor
  · have hd := DC.dirCheck_valid fs base h1 h2 h3 h4 h5 h6 h7
    have hn1 := DC.nessusBlock_found fs base h3 nm en hmem hg
    have hm1 := DC.nmapBlock_full fs base h4 hall
    have ha := DC.aspBlock_pass fs base ea h7 hlk hsz
    unfold DC.mainExit
    rw [show DC.pyUpper "SB" = "SB" from by decide]
    simp [DC.overallValid, hd, DC.check_sb_files, DC.combine3, hn1, hm1, ha,
      DC.nessusBlock_issues_nil, DC.nmapBlock_issues_nil]
  · intro n hn
    have hq_base : base ≠ base ++ ["NVA", "NMAP", n] := by
      intro h; have := congrArg List.length h; simp at this
    have hq_nva : base ++ ["NVA"] ≠ base ++ ["NVA", "NMAP", n] :=
      DC.ne_append_of_ne_suffix (by simp)
    have hq_nessus : base ++ ["NVA", "NESSUS"] ≠ base ++ ["NVA", "NMAP", n] :=
      DC.ne_append_of_ne_suffix (by simp)
    have hq_nmapd : base ++ ["NVA", "NMAP"] ≠ base ++ ["NVA", "NMAP", n] :=
      DC.ne_append_of_ne_suffix (by simp)
    have hq_qualys : base ++ ["NVA", "QUALYS"] ≠ base ++ ["NVA", "NMAP", n] :=
      DC.ne_append_of_ne_suffix (by simp)
    have hq_reports : base ++ ["REPORTS"] ≠ base ++ ["NVA", "NMAP", n] :=
      DC.ne_append_of_ne_suffix (by simp)
    have hq_reqinfo : base ++ ["REQUESTINFO"] ≠ base ++ ["NVA", "NMAP", n] :=
      DC.ne_append_of_ne_suffix (by simp)
    have hq_nmfile : base ++ ["NVA", "NESSUS", nm] ≠ base ++ ["NVA", "NMAP", n] :=
      DC.ne_append_of_ne_suffix (by simp)
    have hq_asp : base ++ ["REQUESTINFO", DC.aspName (DC.basePrefixOf base)] ≠
        base ++ ["NVA", "NMAP", n] :=
      DC.ne_append_of_ne_suffix (by simp)
    have h1' : (fs.remove (base ++ ["NVA", "NMAP", n])).isdir base = true := by
      rw [DC.isdir_remove_ne fs hq_base]; exact h1
    have h2' : (fs.remove (base ++ ["NVA", "NMAP", n])).pathExists (base ++ ["NVA"]) = true := by
      rw [DC.pathExists_remove_ne fs hq_nva]; exact h2
    have h3' : (fs.remove (base ++ ["NVA", "NMAP", n])).pathExists
        (base ++ ["NVA", "NESSUS"]) = true := by
      rw [DC.pathExists_remove_ne fs hq_nessus]; exact h3
    have h4' : (fs.remove (base ++ ["NVA", "NMAP", n])).pathExists
        (base ++ ["NVA", "NMAP"]) = true := by
      rw [DC.pathExists_remove_ne fs hq_nmapd]; exact h4
    have h5' : (fs.remove (base ++ ["NVA", "NMAP", n])).pathExists
        (base ++ ["NVA", "QUALYS"]) = true := by
      rw [DC.pathExists_remove_ne fs hq_qualys]; exact h5
    have h6' : (fs.remove (base ++ ["NVA", "NMAP", n])).pathExists
        (base ++ ["REPORTS"]) = true := by
      rw [DC.pathExists_remove_ne fs hq_reports]; exact h6
    have h7' : (fs.remove (base ++ ["NVA", "NMAP", n])).pathExists
        (base ++ ["REQUESTINFO"]) = true := by
      rw [DC.pathExists_remove_ne fs hq_reqinfo]; exact h7
    have hmem' : (base ++ ["NVA", "NESSUS", nm], en) ∈
        (fs.remove (base ++ ["NVA", "NMAP", n])).entries :=
      List.mem_filter.mpr ⟨hmem, decide_eq_true hq_nmfile⟩
    have hlk' : (fs.remove (base ++ ["NVA", "NMAP", n])).lookup
        (base ++ ["REQUESTINFO", DC.aspName (DC.basePrefixOf base)]) = some ea := by
      rw [DC.lookup_remove_ne fs hq_asp]; exact hlk
    have hd := DC.dirCheck_valid _ base h1' h2' h3' h4' h5' h6' h7'
    have hn1 := DC.nessusBlock_found _ base h3' nm en hmem' hg
    have ha := DC.aspBlock_pass _ base ea h7' hlk' hsz
    have hmiss : (fs.remove (base ++ ["NVA", "NMAP", n])).pathExists
        (base ++ ["NVA", "NMAP", n]) = false :=
      DC.pathExists_remove_self fs _
    have hmm := DC.nmapBlock_missing_mem _ base n h4' hn hmiss
    constructor
    · unfold DC.mainExit
      rw [show DC.pyUpper "SB" = "SB" from by decide]
      have hne : (DC.check_sb_files (fs.remove (base ++ ["NVA", "NMAP", n])) base).1 ≠ [] := by
        apply List.ne_nil_of_mem
        show ("NVA/NMAP/" ++ n) ∈ _
        unfold DC.check_sb_files DC.combine3
        exact List.mem_append.mpr (Or.inl (List.mem_append.mpr (Or.inr hmm)))
      simp [DC.overallValid, hd, List.isEmpty_eq_false.mpr hne]
    · unfold DC.check_sb_files DC.combine3
      exact List.mem_append.mpr (Or.inl (List.mem_append.mpr (Or.inr hmm)))

/-- Witness for C5 on the fixture tree: the full tree exits 0; removing
`ABC123_UDP.xml` exits 1 with that exact filename listed under missing
files. -/
theorem claim5_witness :
    DC.mainExit DC.exampleTree DC.exampleBase "SB" = 0 ∧
    DC.mainExit (DC.exampleTree.remove
        (DC.exampleBase ++ ["NVA", "NMAP", "ABC123_UDP.xml"])) DC.exampleBase "SB" = 1 ∧
    ("NVA/NMAP/ABC123_UDP.xml") ∈ (DC.check_sb_files (DC.exampleTree.remove
        (DC.exampleBase ++ ["NVA", "NMAP", "ABC123_UDP.xml"])) DC.exampleBase).1 := by
  have h := claim5_sb_full_and_removal DC.exampleTree DC.exampleBase
    (by decide) (by decide) (by decide) (by decide) (by decide) (by decide) (by decide)
    "scan.nessus" ⟨false, 100⟩ (by decide) (by decide)
    ⟨false, 26000⟩ (by decide) (by decide) (by decide)
  exact ⟨h.1, (h.2 "ABC123_UDP.xml" (by decide)).1, (h.2 "ABC123_UDP.xml" (by decide)).2⟩
